import Mathlib

/-!
A shallow embedding of `watchdog.go` (package `watchdog` of
warrenhodg/go-watchdog), together with proofs about it.

Modelling conventions:
* Go `time.Time` instants and `time.Duration` values are both integer
  nanosecond counts, modelled by `Int`; `time.Now()` becomes an explicit
  `now : Int` argument threaded through every operation that reads the
  clock.  `t1.After(t2)` is the strict comparison `t2 < t1`.
* A Go method that could mutate its receiver is modelled as a function that
  also returns the (possibly updated) receiver, so that absence of mutation
  is a provable statement rather than an artefact of the embedding.
* The Go map `map[string]WatchdogService` is modelled as an association
  list; Go leaves map iteration order unspecified, so the list order stands
  for one admissible iteration order.
* `error` results become `Option String` (`none` = `nil`, `some msg` = a
  non-nil error carrying message `msg`).
* The repository's only `WatchdogService` implementation is
  `timeWatchdogService`, so registry entries are modelled with that
  concrete type.
-/

namespace Watchdog

/-- The struct `timeWatchdogService` (watchdog.go lines 26-30):
a name, a fixed duration, and the absolute expiry instant `expireAt`. -/
structure timeWatchdogService where
  name : String
  duration : Int
  expireAt : Int
deriving Repr, DecidableEq

/-- Method `Whack` (watchdog.go lines 50-52):
`s.expireAt = time.Now().Add(s.duration)`. -/
def timeWatchdogService.Whack (s : timeWatchdogService) (now : Int) :
    timeWatchdogService :=
  { s with expireAt := now + s.duration }

/-- Constructor `TimeWatchdogService` (watchdog.go lines 33-42): build the
struct with the given name and duration (the `expireAt` field starts at the
zero value) and then call `Whack` once.  The Go code performs no validation
of either argument. -/
def TimeWatchdogService (name : String) (duration : Int) (now : Int) :
    timeWatchdogService :=
  (timeWatchdogService.mk name duration 0).Whack now

/-- Method `Name` (watchdog.go lines 45-47). -/
def timeWatchdogService.Name (s : timeWatchdogService) : String :=
  s.name

/-- Method `Check` (watchdog.go lines 55-57):
`time.Now().After(s.expireAt)`, i.e. true iff `now` is strictly after
`expireAt`. -/
def timeWatchdogService.Check (s : timeWatchdogService) (now : Int) : Bool :=
  decide (s.expireAt < now)

/-- Method `Check`, state-threaded: the method body contains no assignment
to the receiver, so the receiver comes back unchanged alongside the boolean
result. -/
def timeWatchdogService.CheckSt (s : timeWatchdogService) (now : Int) :
    Bool × timeWatchdogService :=
  (s.Check now, s)

/-- Go map assignment `m[k] = v`: replace the entry at key `k` if one
exists, otherwise append a new entry. -/
def mapInsert (k : String) (v : timeWatchdogService) :
    List (String × timeWatchdogService) → List (String × timeWatchdogService)
  | [] => [(k, v)]
  | (k', v') :: rest =>
      if k' = k then (k, v) :: rest else (k', v') :: mapInsert k v rest

/-- Go `delete(m, k)`: drop the entry at key `k` if one exists. -/
def mapDelete (k : String) :
    List (String × timeWatchdogService) → List (String × timeWatchdogService)
  | [] => []
  | (k', v') :: rest =>
      if k' = k then rest else (k', v') :: mapDelete k rest

/-- The struct `mapWatchdogSystem` (watchdog.go lines 60-64).  The mutex
only serialises access and has no sequential meaning, so it is not part of
the state.  The struct declares a single map field, `services`; the methods
`Add` and `Remove` refer to it by the (undeclared) field name `timeouts`,
which we read as that same map. -/
structure mapWatchdogSystem where
  terminated : Bool
  services : List (String × timeWatchdogService)
deriving Repr, DecidableEq

/-- Modelled from the spec: the constructor `MapWatchdogSystem`
(watchdog.go lines 67-75) references the undefined identifiers `Watchdog`
and `timeWatchdog` and does not compile; the spec says a supervisor starts
with the stop flag false and an empty registry. -/
def MapWatchdogSystem : mapWatchdogSystem :=
  { terminated := false, services := [] }

/-- Method `Add` (watchdog.go lines 78-83): `w.timeouts[s.Name()] = s`. -/
def mapWatchdogSystem.Add (w : mapWatchdogSystem) (s : timeWatchdogService) :
    mapWatchdogSystem :=
  { w with services := mapInsert s.Name s w.services }

/-- Method `Remove` (watchdog.go lines 86-91): `delete(w.timeouts, s.Name())`. -/
def mapWatchdogSystem.Remove (w : mapWatchdogSystem) (s : timeWatchdogService) :
    mapWatchdogSystem :=
  { w with services := mapDelete s.Name w.services }

/-- The loop body of `Check` (watchdog.go lines 100-108): fold over the
entries, appending `name` (after `", "` when non-empty) to `errors`
whenever `!service.Check()` holds.  Note the negation: the Go code adds a
service to the error string when its `Check()` returns FALSE. -/
def checkErrors (now : Int) :
    List (String × timeWatchdogService) → String → String
  | [], errors => errors
  | (name, s) :: rest, errors =>
      if ! s.Check now then
        checkErrors now rest ((if errors ≠ "" then errors ++ ", " else errors) ++ name)
      else
        checkErrors now rest errors

/-- Method `Check` on the system (watchdog.go lines 94-115): collect names
via `checkErrors` starting from the empty string; return the formatted
error when the result is non-empty, `nil` otherwise. -/
def mapWatchdogSystem.Check (w : mapWatchdogSystem) (now : Int) :
    Option String :=
  let errors := checkErrors now w.services ""
  if errors ≠ "" then
    some ("Watchdog timed out on the following services: " ++ errors)
  else
    none

/-- The loop body of `Check`, state-threaded: each service's `Check` method
is invoked through `CheckSt` and the (possibly updated) service is written
back, so any mutation performed by a service's `Check` would be visible. -/
def checkErrorsSt (now : Int) :
    List (String × timeWatchdogService) → String →
      String × List (String × timeWatchdogService)
  | [], errors => (errors, [])
  | (name, s) :: rest, errors =>
      let r := s.CheckSt now
      let errors' :=
        if ! r.1 then (if errors ≠ "" then errors ++ ", " else errors) ++ name
        else errors
      let tail := checkErrorsSt now rest errors'
      (tail.1, (name, r.2) :: tail.2)

/-- Method `Check` on the system, state-threaded (watchdog.go lines
94-115): the result together with the state of the system after the call. -/
def mapWatchdogSystem.CheckSt (w : mapWatchdogSystem) (now : Int) :
    Option String × mapWatchdogSystem :=
  let r := checkErrorsSt now w.services ""
  (if r.1 ≠ "" then
    some ("Watchdog timed out on the following services: " ++ r.1)
  else none,
   { w with services := r.2 })

/-- Method `Watch` (watchdog.go lines 118-131), with explicit fuel bounding
the number of loop iterations and an explicit clock: each iteration tests
`w.terminated`, calls `w.Check()`, returns any error, and otherwise sleeps
for `period` (modelled as the clock advancing by `period`).  The result is
`none` when the fuel runs out mid-loop, `some none` for a `nil` return and
`some (some e)` for an error return; the second component counts how many
times the aggregate `Check` was invoked. -/
def mapWatchdogSystem.WatchAux :
    Nat → mapWatchdogSystem → Int → Int → Option (Option String) × Nat
  | 0, _, _, _ => (none, 0)
  | fuel + 1, w, now, period =>
      if w.terminated then (some none, 0)
      else
        match w.Check now with
        | some e => (some (some e), 1)
        | none =>
            let r := mapWatchdogSystem.WatchAux fuel w (now + period) period
            (r.1, r.2 + 1)

/-- Method `Terminate` (watchdog.go lines 134-136): `w.terminated = true`. -/
def mapWatchdogSystem.Terminate (w : mapWatchdogSystem) : mapWatchdogSystem :=
  { w with terminated := true }

/-- The aggregate check as the spec states it (for comparison with the
code's `Check`): success iff no registered check is expired
(`expired() = true`); on failure, the names of exactly the expired checks,
sorted. -/
def specCheckAll (w : mapWatchdogSystem) (now : Int) : Option (List String) :=
  let expired := (w.services.filter (fun p => p.2.Check now)).map Prod.fst
  if expired = [] then none
  else some (expired.insertionSort (· ≤ ·))

/-- The textual rendering of an aggregate failure as the spec states it
(for comparison with the code's message). -/
def specRender (names : List String) : String :=
  "watchdog timed out on the following services: " ++ String.intercalate ", " names

/-- The constructor as the spec states it (for comparison with the code's
`TimeWatchdogService`): fails with `InvalidConfiguration` when
`duration < 0`, produces a check otherwise. -/
def specTimeWatchdogService (name : String) (duration : Int) (now : Int) :
    Option timeWatchdogService :=
  if duration < 0 then none else some (TimeWatchdogService name duration now)

/-- C1: the aggregate `Check` does NOT return success iff no registered
check is expired — the code inverts the failure condition (`if
!service.Check()`).  At time 10, the single check `"a"` (expireAt 5) is
expired (`Check = true`), yet the aggregate reports success, while the
spec's aggregate reports failure naming `"a"`; at time 0 the check is
healthy, yet the aggregate reports failure naming it. -/
theorem C1_aggregate_polarity_inverted :
    timeWatchdogService.Check ⟨"a", 5, 5⟩ 10 = true ∧
    mapWatchdogSystem.Check
      { terminated := false, services := [("a", ⟨"a", 5, 5⟩)] } 10 = none ∧
    specCheckAll
      { terminated := false, services := [("a", ⟨"a", 5, 5⟩)] } 10 = some ["a"] ∧
    timeWatchdogService.Check ⟨"a", 5, 5⟩ 0 = false ∧
    mapWatchdogSystem.Check
      { terminated := false, services := [("a", ⟨"a", 5, 5⟩)] } 0 =
      some "Watchdog timed out on the following services: a" := by
  refine ⟨rfl, by decide, by decide, rfl, by decide⟩

/-- C2: for a check whose last reset happened at time `t`, the `Check`
method returns true if and only if the query time is strictly after the
deadline `t + duration`, and the call leaves the check's state unchanged. -/
theorem C2_check_strictly_after_deadline_and_pure
    (s : timeWatchdogService) (t now : Int) :
    (((s.Whack t).CheckSt now).1 = true ↔ t + s.duration < now) ∧
    ((s.Whack t).CheckSt now).2 = s.Whack t := by
  refine ⟨?_, rfl⟩
  simp [timeWatchdogService.CheckSt, timeWatchdogService.Check,
    timeWatchdogService.Whack]

/-- C5: the aggregate `Check`'s failure message is not the sorted,
lowercase rendering the claim states.  With entries inserted in order
`"b"`, `"a"` (both healthy at time 0, hence named by the code's inverted
test), the code renders `"Watchdog timed out on the following services:
b, a"` — capitalised, in map-iteration order rather than sorted, and
naming the non-expired checks; the spec's aggregate reports success here,
and its rendering of `["a", "b"]` differs from the code's string. -/
theorem C5_failure_rendering_diverges :
    mapWatchdogSystem.Check
      { terminated := false,
        services := [("b", ⟨"b", 100, 100⟩), ("a", ⟨"a", 100, 100⟩)] } 0 =
      some "Watchdog timed out on the following services: b, a" ∧
    specCheckAll
      { terminated := false,
        services := [("b", ⟨"b", 100, 100⟩), ("a", ⟨"a", 100, 100⟩)] } 0 = none ∧
    specRender ["a", "b"] =
      "watchdog timed out on the following services: a, b" := by
  refine ⟨by decide, by decide, by decide⟩

/-- C6 counterexample: constructing a check with the negative duration `-5`
does not fail — the code performs no validation and yields a concrete
check (deadline already in the past), whereas the spec's constructor
rejects it. -/
theorem C6_counterexample_negative_duration_accepted :
    TimeWatchdogService "x" (-5) 100 = ⟨"x", -5, 95⟩ ∧
    specTimeWatchdogService "x" (-5) 100 = none := by
  refine ⟨by decide, by decide⟩

/-- C6 amended: the constructor performs no validation: for every negative
duration it still produces a check, whose deadline `now + duration` is
already in the past, so the check is expired at the very instant of its
construction. -/
theorem C6_negative_duration_check_produced_expired
    (name : String) (d : Int) (now : Int) (h : d < 0) :
    TimeWatchdogService name d now = ⟨name, d, now + d⟩ ∧
    (TimeWatchdogService name d now).Check now = true := by
  refine ⟨rfl, ?_⟩
  simp only [timeWatchdogService.Check, decide_eq_true_eq]
  show now + d < now
  omega

/-- C6 amended, witness at name `"x"`, duration `-5`, time `100`. -/
theorem C6_negative_duration_witness :
    (-5 : Int) < 0 ∧
    (TimeWatchdogService "x" (-5) 100 = ⟨"x", -5, 100 + -5⟩ ∧
     (TimeWatchdogService "x" (-5) 100).Check 100 = true) :=
  ⟨by decide, C6_negative_duration_check_produced_expired "x" (-5) 100 (by decide)⟩

/-- C7: for every nonnegative duration, a check queried at the exact
instant of its construction, and a check queried at the exact instant of a
`Whack`, reports not-expired — the reset instant is not strictly after the
deadline, even for duration zero. -/
theorem C7_fresh_check_not_expired (name : String) (d : Int)
    (s : timeWatchdogService) (now : Int) (hd : 0 ≤ d) (hs : 0 ≤ s.duration) :
    (TimeWatchdogService name d now).Check now = false ∧
    ((s.Whack now).Check now) = false := by
  constructor
  · simp only [timeWatchdogService.Check, decide_eq_false_iff_not]
    show ¬ now + d < now
    omega
  · simp only [timeWatchdogService.Check, decide_eq_false_iff_not]
    show ¬ now + s.duration < now
    omega

/-- C7 witness at duration zero: a check constructed at time 7 with
duration 0, and a check of duration 0 whacked at time 7, both report
not-expired at time 7. -/
theorem C7_fresh_check_witness :
    (0 : Int) ≤ 0 ∧
    ((TimeWatchdogService "db" 0 7).Check 7 = false ∧
     (((⟨"db", 0, 3⟩ : timeWatchdogService).Whack 7).Check 7) = false) :=
  ⟨le_refl 0, C7_fresh_check_not_expired "db" 0 ⟨"db", 0, 3⟩ 7 (le_refl 0) (le_refl 0)⟩

/-- C9 counterexample: construction does not reject the empty string, so a
check whose `Name` is `""` is produced. -/
theorem C9_counterexample_empty_name :
    (TimeWatchdogService "" 5 0).Name = "" := rfl

/-- C9 amended: `Name` is stable — it returns exactly the string supplied
at construction, and neither `Whack` nor `Check` changes it — but
construction does not validate the name, so it may be empty. -/
theorem C9_name_stable (nm : String) (d : Int) (s : timeWatchdogService)
    (now t u : Int) :
    (TimeWatchdogService nm d now).Name = nm ∧
    (s.Whack t).Name = s.Name ∧
    ((s.CheckSt u).2).Name = s.Name :=
  ⟨rfl, rfl, rfl⟩

/-- The state-threaded loop body returns the same error string as the pure
one and hands every service back unchanged. -/
theorem checkErrorsSt_eq (now : Int) (l : List (String × timeWatchdogService))
    (errors : String) :
    checkErrorsSt now l errors = (checkErrors now l errors, l) := by
  induction l generalizing errors with
  | nil => rfl
  | cons p rest ih =>
      obtain ⟨nm, s⟩ := p
      by_cases hc : s.Check now
      · simp [checkErrorsSt, checkErrors, timeWatchdogService.CheckSt, hc, ih]
      · simp [checkErrorsSt, checkErrors, timeWatchdogService.CheckSt, hc, ih]

/-- C10: the aggregate `Check` is mutation-free: the system state after the
call — the set of registered entries and each individual check's state —
is exactly the state before it, and the result agrees with the pure
reading of `Check`. -/
theorem C10_check_does_not_mutate (w : mapWatchdogSystem) (now : Int) :
    (w.CheckSt now).2 = w ∧ (w.CheckSt now).1 = w.Check now := by
  constructor
  · simp [mapWatchdogSystem.CheckSt, checkErrorsSt_eq]
  · simp [mapWatchdogSystem.CheckSt, mapWatchdogSystem.Check, checkErrorsSt_eq]

/-- Writing key `k` twice leaves exactly what writing it once leaves. -/
theorem mapInsert_mapInsert (k : String) (v1 v2 : timeWatchdogService)
    (l : List (String × timeWatchdogService)) :
    mapInsert k v2 (mapInsert k v1 l) = mapInsert k v2 l := by
  induction l with
  | nil => simp [mapInsert]
  | cons p rest ih =>
      obtain ⟨k', v'⟩ := p
      by_cases h : k' = k
      · simp [mapInsert, h]
      · simp [mapInsert, h, ih]

/-- Writing key `k` into a map that holds at most one entry with that key
leaves exactly one entry with that key. -/
theorem countP_mapInsert (k : String) (v : timeWatchdogService)
    (l : List (String × timeWatchdogService))
    (h : l.countP (fun p => p.1 == k) ≤ 1) :
    (mapInsert k v l).countP (fun p => p.1 == k) = 1 := by
  induction l with
  | nil => simp [mapInsert]
  | cons p rest ih =>
      obtain ⟨k', v'⟩ := p
      by_cases hk : k' = k
      · subst hk
        simp [mapInsert, List.countP_cons] at h ⊢
        exact h
      · simp only [mapInsert, if_neg hk, List.countP_cons] at h ⊢
        have hb : (k' == k) = false := by simpa using hk
        simp only [hb] at h ⊢
        simpa using ih (by simpa using h)

/-- A map whose keys are distinct holds at most one entry with any key. -/
theorem countP_le_one_of_nodup (k : String)
    (l : List (String × timeWatchdogService))
    (h : (l.map Prod.fst).Nodup) :
    l.countP (fun p => p.1 == k) ≤ 1 := by
  induction l with
  | nil => simp
  | cons p rest ih =>
      simp only [List.map_cons, List.nodup_cons] at h
      obtain ⟨hnotin, hrest⟩ := h
      by_cases hk : p.1 = k
      · have hzero : rest.countP (fun q => q.1 == k) = 0 := by
          rw [List.countP_eq_zero]
          intro a ha hak
          exact hnotin (by
            rw [hk, ← eq_of_beq hak]
            exact List.mem_map_of_mem Prod.fst ha)
        simp [List.countP_cons, hk, hzero]
      · have hb : (p.1 == k) = false := by simpa using hk
        simp only [List.countP_cons, hb, if_false]
        simpa using ih hrest

/-- C8: if the registry's keys are distinct and two checks share a name,
adding the first and then the second has exactly the effect of adding only
the second: the resulting systems are equal, the name has exactly one
entry, and every subsequent aggregate `Check` agrees with a registry that
only ever saw the second check. -/
theorem C8_add_same_name_last_writer_wins (w : mapWatchdogSystem)
    (s1 s2 : timeWatchdogService) (hname : s1.Name = s2.Name)
    (hw : (w.services.map Prod.fst).Nodup) :
    (w.Add s1).Add s2 = w.Add s2 ∧
    ((w.Add s1).Add s2).services.countP (fun p => p.1 == s2.Name) = 1 ∧
    ∀ now : Int, ((w.Add s1).Add s2).Check now = (w.Add s2).Check now := by
  have hsys : (w.Add s1).Add s2 = w.Add s2 := by
    simp only [mapWatchdogSystem.Add, hname]
    exact congrArg (fun l => mapWatchdogSystem.mk w.terminated l)
      (mapInsert_mapInsert s2.Name s1 s2 w.services)
  refine ⟨hsys, ?_, fun now => by rw [hsys]⟩
  rw [hsys]
  exact countP_mapInsert s2.Name s2 w.services (countP_le_one_of_nodup s2.Name w.services hw)

/-- C8 witness: adding `⟨"a", 1, 1⟩` and then `⟨"a", 2, 2⟩` to the fresh
system leaves the same system as adding only the second, with exactly one
`"a"` entry. -/
theorem C8_add_same_name_witness :
    ((MapWatchdogSystem.services.map Prod.fst).Nodup) ∧
    ((MapWatchdogSystem.Add ⟨"a", 1, 1⟩).Add ⟨"a", 2, 2⟩ =
        MapWatchdogSystem.Add ⟨"a", 2, 2⟩ ∧
      ((MapWatchdogSystem.Add ⟨"a", 1, 1⟩).Add ⟨"a", 2, 2⟩).services.countP
          (fun p => p.1 == "a") = 1 ∧
      ∀ now : Int, ((MapWatchdogSystem.Add ⟨"a", 1, 1⟩).Add ⟨"a", 2, 2⟩).Check now =
        (MapWatchdogSystem.Add ⟨"a", 2, 2⟩).Check now) :=
  ⟨by simp [MapWatchdogSystem],
   C8_add_same_name_last_writer_wins MapWatchdogSystem ⟨"a", 1, 1⟩ ⟨"a", 2, 2⟩
     rfl (by simp [MapWatchdogSystem])⟩

/-- C4: `Terminate` is idempotent — any positive number of applications
equals one — and on a system on which `Terminate` has been called, `Watch`
(with any positive fuel) returns `nil` immediately, invoking the aggregate
`Check` zero times. -/
theorem C4_terminate_idempotent_watch_skips (n : Nat) (w v : mapWatchdogSystem)
    (fuel : Nat) (now period : Int) (hn : 1 ≤ n) (hfuel : 1 ≤ fuel) :
    mapWatchdogSystem.Terminate^[n] w = w.Terminate ∧
    mapWatchdogSystem.WatchAux fuel v.Terminate now period = (some none, 0) := by
  constructor
  · obtain ⟨m, rfl⟩ : ∃ m, n = m + 1 := ⟨n - 1, by omega⟩
    rw [Function.iterate_succ_apply]
    exact Function.iterate_fixed rfl m
  · obtain ⟨m, rfl⟩ : ∃ m, fuel = m + 1 := ⟨fuel - 1, by omega⟩
    simp [mapWatchdogSystem.WatchAux, mapWatchdogSystem.Terminate]

/-- C4 witness: three `Terminate` calls on the fresh system equal one, and
`Watch` with fuel 2 on the terminated fresh system returns `nil` with zero
check invocations. -/
theorem C4_terminate_witness :
    (1 ≤ 3 ∧ 1 ≤ 2) ∧
    (mapWatchdogSystem.Terminate^[3] MapWatchdogSystem =
        MapWatchdogSystem.Terminate ∧
      mapWatchdogSystem.WatchAux 2 MapWatchdogSystem.Terminate 0 5 =
        (some none, 0)) :=
  ⟨⟨by decide, by decide⟩,
   C4_terminate_idempotent_watch_skips 3 MapWatchdogSystem MapWatchdogSystem 2 0 5
     (by decide) (by decide)⟩

/-- C3: whenever `Watch` returns an error, the stop flag was unset and
there is an iteration index `k` within the fuel bound such that the
aggregate check of every earlier iteration succeeded, the check of
iteration `k` produced exactly the returned error, and the aggregate check
was invoked exactly `k + 1` times — the loop stops at the first failure
and never runs another check after it. -/
theorem C3_watch_fail_fast (fuel : Nat) (w : mapWatchdogSystem)
    (now period : Int) (e : String)
    (h : (mapWatchdogSystem.WatchAux fuel w now period).1 = some (some e)) :
    w.terminated = false ∧
    ∃ k : Nat, k < fuel ∧
      (∀ j : Nat, j < k → w.Check (now + (j : Int) * period) = none) ∧
      w.Check (now + (k : Int) * period) = some e ∧
      (mapWatchdogSystem.WatchAux fuel w now period).2 = k + 1 := by
  induction fuel generalizing now with
  | zero => simp [mapWatchdogSystem.WatchAux] at h
  | succ m ih =>
      cases ht : w.terminated with
      | true => simp [mapWatchdogSystem.WatchAux, ht] at h
      | false =>
          cases hc : w.Check now with
          | some e0 =>
              have he : e0 = e := by
                simpa [mapWatchdogSystem.WatchAux, ht, hc] using h
              subst he
              refine ⟨rfl, 0, by omega, ?_, ?_, ?_⟩
              · intro j hj
                omega
              · simpa using hc
              · simp [mapWatchdogSystem.WatchAux, ht, hc]
          | none =>
              have h' :
                  (mapWatchdogSystem.WatchAux m w (now + period) period).1 =
                    some (some e) := by
                simpa [mapWatchdogSystem.WatchAux, ht, hc] using h
              obtain ⟨-, k, hk, hprev, hfail, hcount⟩ := ih (now + period) h'
              refine ⟨rfl, k + 1, by omega, ?_, ?_, ?_⟩
              · intro j hj
                cases j with
                | zero => simpa using hc
                | succ i =>
                    have harg :
                        now + ((i + 1 : Nat) : Int) * period =
                          now + period + (i : Int) * period := by
                      push_cast
                      ring
                    rw [harg]
                    exact hprev i (by omega)
              · have harg :
                    now + ((k + 1 : Nat) : Int) * period =
                      now + period + (k : Int) * period := by
                  push_cast
                  ring
                rw [harg]
                exact hfail
              · simp only [mapWatchdogSystem.WatchAux, ht, hc]
                simp [hcount]

/-- C3 witness: a registry holding the single check `"a"` with deadline
1000, watched from time 0 with period 1 and fuel 1: `Watch` returns the
aggregate failure of the first iteration after exactly one check
invocation.  (Because of the code's inverted polarity, a not-yet-expired
check is what makes the aggregate check fail.) -/
theorem C3_watch_fail_fast_witness :
    (mapWatchdogSystem.WatchAux 1
        { terminated := false, services := [("a", ⟨"a", 0, 1000⟩)] } 0 1).1 =
      some (some "Watchdog timed out on the following services: a") ∧
    ({ terminated := false,
       services := [("a", ⟨"a", 0, 1000⟩)] } : mapWatchdogSystem).terminated
        = false ∧
    ∃ k : Nat, k < 1 ∧
      (∀ j : Nat, j < k →
        mapWatchdogSystem.Check
          { terminated := false, services := [("a", ⟨"a", 0, 1000⟩)] }
          (0 + (j : Int) * 1) = none) ∧
      mapWatchdogSystem.Check
          { terminated := false, services := [("a", ⟨"a", 0, 1000⟩)] }
          (0 + (k : Int) * 1) =
        some "Watchdog timed out on the following services: a" ∧
      (mapWatchdogSystem.WatchAux 1
          { terminated := false, services := [("a", ⟨"a", 0, 1000⟩)] } 0 1).2 =
        k + 1 :=
  ⟨by decide,
   C3_watch_fail_fast 1
     { terminated := false, services := [("a", ⟨"a", 0, 1000⟩)] } 0 1
     "Watchdog timed out on the following services: a" (by decide)⟩

end Watchdog
